import Mathlib

/-!
Verification development for the De-FIR submission pipeline.

Shallow embedding of:
* `backend/services/ml.js` — the Agreement Scorer's local NLP fallback
  (`calculateSimilarityFallback` and its helper metrics);
* `backend/services/ocr.js` (`cleanText`) and `backend/services/stt.js`
  (`cleanTranscription`, `transcribeAudio`, `transcribeWithFallback`);
* `backend/server.js` — the `POST /api/submitFIR` orchestrator, modelled as a
  pure function from abstract stage outcomes to the ordered list of issued
  side effects plus a success flag;
* `contracts/FIRRegistry.sol` — `createFIR` / `setVerification` with revert
  semantics.

Conventions: JavaScript numbers are modelled as `ℝ` (with `ℕ`/`ℤ` where the
code only ever holds integers); the single place the JS code can produce `NaN`
(the unguarded `0/0` in `calculateJaccardSimilarity`) is modelled by an
`Option` result, `none` standing for a `NaN` score.  JS `\w`, `\s` and
`toLowerCase` are modelled on their ASCII cores.
-/

namespace ML

/-- JS `\w` character class: `[A-Za-z0-9_]`. -/
def isWordChar (c : Char) : Bool := c.isAlphanum || c = '_'

/-- JS `\s` character class, restricted to its ASCII core. -/
def isWs (c : Char) : Bool :=
  c = ' ' || c = '\t' || c = '\n' || c = '\r' || c = '\x0b' || c = '\x0c'

/-- One step of the run-collapsing scan: `prevWs` records whether the previous
character was whitespace (i.e. we are inside a run already emitted as `' '`).
Implements the global regex replace `\s+` → `' '`. -/
def collapseWsAux : Bool → List Char → List Char
  | _, [] => []
  | prevWs, c :: cs =>
    if isWs c then
      if prevWs then collapseWsAux true cs else ' ' :: collapseWsAux true cs
    else c :: collapseWsAux false cs

/-- `replace(/\s+/g, ' ')`. -/
def collapseWs (l : List Char) : List Char := collapseWsAux false l

/-- JS `String.prototype.trim`. -/
def trimWs (l : List Char) : List Char :=
  ((l.dropWhile isWs).reverse.dropWhile isWs).reverse

/-- `ml.js` `cleanText`: lowercase, `replace(/[^\w\s]/g, ' ')` (every character
outside `\w`/`\s` becomes one space), `replace(/\s+/g, ' ')`, `trim()`. -/
def cleanText (s : String) : String :=
  String.mk (trimWs (collapseWs
    ((s.data.map Char.toLower).map (fun c => if isWordChar c || isWs c then c else ' '))))

/-- Tokenizer scan: accumulates the current in-progress word (reversed) and
emits it when a non-word character or the end of input is reached.  Models
`natural.WordTokenizer`, which splits the input on runs of characters outside
`[A-Za-z0-9_]` and discards empty tokens. -/
def tokenizeAux : List Char → List Char → List String
  | [], cur => if cur.isEmpty then [] else [String.mk cur.reverse]
  | c :: cs, cur =>
    if isWordChar c then tokenizeAux cs (c :: cur)
    else if cur.isEmpty then tokenizeAux cs []
    else String.mk cur.reverse :: tokenizeAux cs []

/-- `this.tokenizer.tokenize(text)` for `natural.WordTokenizer`. -/
def tokenize (s : String) : List String := tokenizeAux s.data []

/-- The stop-word list of `removeStopWords` (`ml.js`), verbatim (the JS source
lists `'her'` twice; the duplicate is kept, membership is unaffected). -/
def stopWords : List String :=
  ["the", "a", "an", "and", "or", "but", "in", "on", "at", "to", "for", "of", "with", "by",
   "is", "are", "was", "were", "be", "been", "being", "have", "has", "had", "do", "does", "did",
   "will", "would", "could", "should", "may", "might", "must", "can", "this", "that", "these",
   "those",
   "i", "you", "he", "she", "it", "we", "they", "me", "him", "her", "us", "them", "my", "your",
   "his", "her", "its", "our", "their"]

/-- `removeStopWords`: drop stop words and tokens of length ≤ 2. -/
def removeStopWords (tokens : List String) : List String :=
  tokens.filter (fun t => decide (t ∉ stopWords) && decide (t.length > 2))

/-- `text.toLowerCase()` (ASCII core). -/
def lowerStr (s : String) : String := String.mk (s.data.map Char.toLower)

/-- The stop-word-filtered token list the fallback computes for one input
(`removeStopWords(this.tokenizer.tokenize(text.toLowerCase()))`). -/
def wordsOf (s : String) : List String := removeStopWords (tokenize (lowerStr s))

/-- Size of `new Set([...set1].filter(x => set2.has(x)))` in
`calculateJaccardSimilarity` (`set1` already deduplicated, so the filtered list
is the intersection). -/
def interCard (w1 w2 : List String) : ℕ :=
  (w1.dedup.filter (fun x => decide (x ∈ w2))).length

/-- Size of `new Set([...set1, ...set2])` in `calculateJaccardSimilarity`. -/
def unionCard (w1 w2 : List String) : ℕ := ((w1 ++ w2).dedup).length

/-- The union vocabulary `allWords = [...new Set([...words1, ...words2])]` of
`calculateCosineSimilarity`.  (`List.dedup` keeps a different representative of
each duplicated element than a JS `Set` does, but the two agree up to
permutation, and only sums over the vocabulary are ever used.) -/
def vocab (w1 w2 : List String) : List String := (w1 ++ w2).dedup

/-- `vector1 · vector2` in `calculateCosineSimilarity`, with
`words.filter(w => w === word).length = List.count`. -/
def dotProd (w1 w2 : List String) : ℕ :=
  ((vocab w1 w2).map (fun w => w1.count w * w2.count w)).sum

/-- Sum of squares of one term-frequency vector over the union vocabulary. -/
def sqNorm (w1 w2 wl : List String) : ℕ :=
  ((vocab w1 w2).map (fun w => wl.count w * wl.count w)).sum

/-- `calculateCosineSimilarity`: term-frequency vectors over the union
vocabulary; returns `0` when either magnitude is zero, otherwise
`dot / (‖v1‖ * ‖v2‖)`. -/
noncomputable def cosineSim (w1 w2 : List String) : ℝ :=
  if Real.sqrt (sqNorm w1 w2 w1) = 0 ∨ Real.sqrt (sqNorm w1 w2 w2) = 0 then 0
  else (dotProd w1 w2 : ℝ) / (Real.sqrt (sqNorm w1 w2 w1) * Real.sqrt (sqNorm w1 w2 w2))

/-- `calculateLevenshteinDistance`: the dynamic program of `ml.js` fills
`matrix[i][j]` with the edit distance between the first `i` characters of
`str2` and the first `j` characters of `str1`, using the recurrence
"`diag` when the characters agree, otherwise `1 + min(diag, left, up)`";
this is that recurrence stated as a recursion on the two character lists. -/
def lev : List Char → List Char → ℕ
  | [], ys => ys.length
  | xs, [] => xs.length
  | x :: xs, y :: ys =>
    if x = y then lev xs ys
    else 1 + min (lev xs ys) (min (lev (x :: xs) ys) (lev xs (y :: ys)))
termination_by xs ys => xs.length + ys.length
decreasing_by all_goals simp_arith

/-- `calculateSimilarityFallback` (`ml.js`).  Returns `none` when the union of
the two filtered token sets is empty: there `calculateJaccardSimilarity`
evaluates `0/0 = NaN` in JS, and the `NaN` propagates through the weighted sum,
`Math.round`, `Math.max` and `Math.min` to the returned score.  Otherwise the
score is `round(jaccard*40 + cosine*40 + max(0, 100-lev)/100*20)` clamped via
`Math.min(100, Math.max(0, ·))`. -/
noncomputable def calculateSimilarityFallback (ocrText sttText : String) : Option ℤ :=
  let w1 := wordsOf ocrText
  let w2 := wordsOf sttText
  if unionCard w1 w2 = 0 then none
  else
    let jaccard : ℝ := (interCard w1 w2 : ℝ) / (unionCard w1 w2 : ℝ)
    let cosine : ℝ := cosineSim w1 w2
    let dist : ℕ := lev ocrText.data sttText.data
    let finalScore : ℤ :=
      round (jaccard * 40 + cosine * 40 + max 0 (100 - (dist : ℝ)) / 100 * 20)
    some (min 100 (max 0 finalScore))

/-- `calculateSimilarity` (`ml.js`) on its local path: both inputs are first
normalized by `cleanText`, then handed to `calculateSimilarityFallback`. -/
noncomputable def calculateSimilarityLocal (ocrText sttText : String) : Option ℤ :=
  calculateSimilarityFallback (cleanText ocrText) (cleanText sttText)

end ML

/-!
Shared embeddings of the global-regex-replace steps used by the OCR and STT
text normalizers.  Each JS `replace` scans left to right over non-overlapping
matches; the combinators below implement the same transformations as one-pass
character scans, with comments relating each to its regex.
-/

namespace TextRules

/-- Collapse every maximal run of characters matching `p` to the single
character `rep`: the shape of `replace(/X+/g, r)` for a character class `X`
and one-character replacement `r`.  `inRun` records that the replacement for
the current run has already been emitted. -/
def collapseRunsAux (p : Char → Bool) (rep : Char) : Bool → List Char → List Char
  | _, [] => []
  | inRun, c :: cs =>
    if p c then
      if inRun then collapseRunsAux p rep true cs
      else rep :: collapseRunsAux p rep true cs
    else c :: collapseRunsAux p rep false cs

/-- `replace(/\n+/g, '\n')` (OCR step 2). -/
def collapseNl (l : List Char) : List Char := collapseRunsAux (fun c => c = '\n') '\n' false l

/-- `replace(/\n+/g, ' ')` (STT step 2). -/
def collapseNlToSpace (l : List Char) : List Char :=
  collapseRunsAux (fun c => c = '\n') ' ' false l

/-- Helper for `replace(/\s+([P])/g, '$1')`: processes the list right to left,
returning the transformed suffix together with a flag saying whether that
(untransformed) suffix begins with `\s*` followed by a character of `P`.  A
whitespace character is deleted exactly when its following non-whitespace
character (skipping whitespace) is in `P` — which is exactly when it lies in
the `\s+` part of some match of the regex. -/
def rmWsBeforePunctAux (P : List Char) : List Char → (List Char × Bool)
  | [] => ([], false)
  | c :: cs =>
    let r := rmWsBeforePunctAux P cs
    if ML.isWs c then
      if r.2 then (r.1, true) else (c :: r.1, false)
    else if decide (c ∈ P) then (c :: r.1, true)
    else (c :: r.1, false)

/-- `replace(/\s+([P])/g, '$1')`: remove whitespace runs that directly precede
a punctuation character of `P`. -/
def rmWsBeforePunct (P : List Char) (l : List Char) : List Char := (rmWsBeforePunctAux P l).1

/-- Helper for `replace(/([P])\s+/g, '$1 ')`: left-to-right scan.  `afterP`
records that the previous character was a punctuation character of `P` (so a
whitespace run starting here is the `\s+` of a match, replaced by one space);
`inRun` records that we are inside such a run and its single space has already
been emitted.  Whitespace not preceded by `P` is left untouched. -/
def spaceAfterPunctAux (P : List Char) : Bool → Bool → List Char → List Char
  | _, _, [] => []
  | afterP, inRun, c :: cs =>
    if ML.isWs c then
      if afterP then ' ' :: spaceAfterPunctAux P false true cs
      else if inRun then spaceAfterPunctAux P false true cs
      else c :: spaceAfterPunctAux P false false cs
    else c :: spaceAfterPunctAux P (decide (c ∈ P)) false cs

/-- `replace(/([P])\s+/g, '$1 ')`. -/
def spaceAfterPunct (P : List Char) (l : List Char) : List Char :=
  spaceAfterPunctAux P false false l

/-- ASCII lowercase letter, the `[a-z]` class. -/
def isLowerAZ (c : Char) : Bool := 'a' ≤ c && c ≤ 'z'

/-- The `[.!?]` class of the STT cleaner's third rule. -/
def sentencePunct : List Char := ['.', '!', '?']

/-- Helper for `replace(/([.!?])\s*([a-z])/g, '$1 $2')`: annotate each
character with whether the suffix strictly after it consists of `\s*` followed
by an `[a-z]` character (the condition for that character to head, or lie in
the gap of, a match). -/
def annotWsLowerAux : List Char → (List (Char × Bool) × Bool)
  | [] => ([], false)
  | c :: cs =>
    let r := annotWsLowerAux cs
    ((c, r.2) :: r.1,
     if isLowerAZ c then true else if ML.isWs c then r.2 else false)

/-- Second pass for `replace(/([.!?])\s*([a-z])/g, '$1 $2')`.  `prevP3` says
the nearest previous non-whitespace character is in `[.!?]`.  A `[.!?]`
character followed (through whitespace) by `[a-z]` heads a match and is
emitted with the replacement's single space; the whitespace of the `\s*` gap
(between such a punctuation character and a lowercase letter) is dropped;
everything else is copied. -/
def fixPunctLetterAux : Bool → List (Char × Bool) → List Char
  | _, [] => []
  | prevP3, (c, nextFlag) :: rest =>
    if decide (c ∈ sentencePunct) then
      if nextFlag then c :: ' ' :: fixPunctLetterAux true rest
      else c :: fixPunctLetterAux true rest
    else if ML.isWs c then
      if prevP3 && nextFlag then fixPunctLetterAux prevP3 rest
      else c :: fixPunctLetterAux prevP3 rest
    else c :: fixPunctLetterAux false rest

/-- `replace(/([.!?])\s*([a-z])/g, '$1 $2')` (STT step 3). -/
def fixPunctLetter (l : List Char) : List Char :=
  fixPunctLetterAux false (annotWsLowerAux l).1

end TextRules

namespace OCRSvc

/-- The punctuation class `[\.\,\!\?\;\:]` of the OCR cleaner's spacing
rules. -/
def ocrPunct : List Char := ['.', ',', '!', '?', ';', ':']

/-- `replace(/[^\w\s\.\,\!\?\;\:\-\(\)]/g, '')`: keep only word characters,
whitespace and the conservative punctuation whitelist. -/
def stripSpecial (l : List Char) : List Char :=
  l.filter (fun c =>
    ML.isWordChar c || ML.isWs c ||
    decide (c ∈ ['.', ',', '!', '?', ';', ':', '-', '(', ')']))

/-- `ocr.js` `cleanText`: collapse whitespace, collapse newlines, trim, strip
characters outside the conservative set, remove spaces before punctuation,
ensure a single space after punctuation, final whitespace cleanup, trim. -/
def cleanText (s : String) : String :=
  String.mk (ML.trimWs (ML.collapseWs
    (TextRules.spaceAfterPunct ocrPunct
      (TextRules.rmWsBeforePunct ocrPunct
        (stripSpecial
          (ML.trimWs (TextRules.collapseNl (ML.collapseWs s.data))))))))

end OCRSvc

namespace STTSvc

/-- The punctuation class `[.!?,:;]` of the STT cleaner's spacing rules. -/
def sttPunct : List Char := ['.', '!', '?', ',', ':', ';']

/-- `stt.js` `cleanTranscription`: collapse whitespace, newlines to spaces,
fix spacing between sentence punctuation and a following lowercase letter,
remove spaces before punctuation, ensure a single space after punctuation,
trim. -/
def cleanTranscription (s : String) : String :=
  String.mk (ML.trimWs
    (TextRules.spaceAfterPunct sttPunct
      (TextRules.rmWsBeforePunct sttPunct
        (TextRules.fixPunctLetter
          (TextRules.collapseNlToSpace (ML.collapseWs s.data))))))

/-- The `provider` tag of a transcription result. -/
inductive SttProvider where
  | googleCloud
  | fallback
deriving DecidableEq

/-- The fields of the objects returned by `transcribeAudio`
(`{text, confidence, audioHash, provider}`). -/
structure SttRes where
  text : String
  confidence : ℤ
  audioHash : String
  provider : SttProvider
deriving DecidableEq

/-- The hard-coded placeholder text of `transcribeWithFallback`. -/
def mockTranscriptionText : String :=
  "This is a mock transcription. Please configure Google Cloud Speech-to-Text for actual transcription. Audio file processed successfully."

/-- `transcribeWithFallback`: returns the mock transcription with fixed
confidence 50 and `provider: 'fallback'`; the audio hash is computed from the
file (abstracted here as a parameter — `calculateAudioHash` cannot throw, it
returns the empty string on error). -/
def transcribeWithFallback (audioHash : String) : SttRes :=
  ⟨mockTranscriptionText, 50, audioHash, .fallback⟩

/-- `transcribeAudio`: uses the Google Cloud client when one was configured at
initialization (`this.client` non-null), otherwise the fallback path.  The
cloud path's outcome is abstracted as an optional result (`none` = the call
threw). -/
def transcribeAudio (clientConfigured : Bool) (cloudOutcome : Option SttRes)
    (audioHash : String) : Option SttRes :=
  if clientConfigured then cloudOutcome else some (transcribeWithFallback audioHash)

end STTSvc

namespace Server

/-- Outcome of `ocrService.extractText` (fields of the returned object that
the orchestrator uses). -/
structure OcrRes where
  text : String
  confidence : ℤ
  imageHash : String
deriving DecidableEq

/-- Outcome of `ipfsService.uploadToIPFS`. -/
structure IpfsRes where
  cid : String
  url : String
deriving DecidableEq

/-- Outcome of `blockchainService.createFIR`. -/
structure ChainRes where
  firId : ℕ
  txHash : String
deriving DecidableEq

/-- One pipeline run's environment: the outcome of each fallible stage
(`none` = that stage threw) plus the configured auto-approval threshold
(`parseInt(process.env.SIMILARITY_THRESHOLD) || 75`).  `setVerificationOk`
says whether the `setVerification` transaction, if issued, succeeds. -/
structure SubmitEnv where
  victimAddress : String
  ocr : Option OcrRes
  stt : Option STTSvc.SttRes
  mlScore : Option ℤ
  ipfs : Option IpfsRes
  chainCreate : Option ChainRes
  setVerificationOk : Bool
  threshold : ℤ

/-- The externally visible side effects the `POST /api/submitFIR` handler can
issue, in order: the two ledger writes and the two temp-file removals. -/
inductive Effect where
  | callCreateFIR (cid : String) (score : ℤ)
  | callSetVerification (firId : ℕ) (verified : Bool)
  | unlinkImage
  | unlinkAudio
deriving DecidableEq

/-- The `POST /api/submitFIR` handler (`server.js`), as a pure function from
the stage outcomes to the ordered list of issued effects and a success flag.
Any stage throwing jumps to the `catch` block, which unlinks both uploaded
files (modelled as always-issued removal effects) and answers with an error.
On the success path the files are unlinked after the ledger writes.  A ledger
call that throws still appears in the effect list (the call was issued); the
code after it is skipped. -/
def submitFIR (env : SubmitEnv) : List Effect × Bool :=
  match env.ocr with
  | none => ([.unlinkImage, .unlinkAudio], false)
  | some _ =>
  match env.stt with
  | none => ([.unlinkImage, .unlinkAudio], false)
  | some _ =>
  match env.mlScore with
  | none => ([.unlinkImage, .unlinkAudio], false)
  | some score =>
  -- firData.verified := similarityResult.score >= (SIMILARITY_THRESHOLD || 75)
  let verified : Bool := decide (env.threshold ≤ score)
  match env.ipfs with
  | none => ([.unlinkImage, .unlinkAudio], false)
  | some ipfs =>
  match env.chainCreate with
  | none => ([.callCreateFIR ipfs.cid score, .unlinkImage, .unlinkAudio], false)
  | some chain =>
    if verified then
      ([.callCreateFIR ipfs.cid score, .callSetVerification chain.firId true,
        .unlinkImage, .unlinkAudio],
       env.setVerificationOk)
    else
      ([.callCreateFIR ipfs.cid score, .unlinkImage, .unlinkAudio], true)

end Server

namespace Registry

/-- The `FIR` struct of `FIRRegistry.sol`; the `exists` flag is modelled by
wrapping records in `Option` inside the state. -/
structure FIR where
  id : ℕ
  victim : String
  ipfsCid : String
  timestamp : ℕ
  verified : Bool
  similarityScore : ℕ
deriving DecidableEq

/-- Contract storage: the FIR counter, the `firs` mapping (`none` = no record,
i.e. `exists = false`), the per-victim id lists, and the two role sets. -/
structure RegState where
  firCounter : ℕ
  firs : ℕ → Option FIR
  victimFIRs : String → List ℕ
  hasVictimRole : String → Bool
  hasGovRole : String → Bool

/-- `createFIR(_ipfsCid, _similarityScore)`: guarded by `onlyRole(VICTIM_ROLE)`,
`require(bytes(_ipfsCid).length > 0)` and `require(_similarityScore <= 100)`
(the score is a `uint256`, so "outside [0,100]" means `> 100`).  A revert
returns the error and leaves the state unchanged; success assigns the next id,
stores the record (auto-verified at `score >= 75`), and appends the id to the
sender's list. -/
def createFIR (s : RegState) (sender ipfsCid : String) (score ts : ℕ) :
    Except String ℕ × RegState :=
  if s.hasVictimRole sender then
    if ipfsCid.length = 0 then (.error "IPFS CID cannot be empty", s)
    else if 100 < score then (.error "Similarity score cannot exceed 100", s)
    else
      let newId := s.firCounter + 1
      let fir : FIR := ⟨newId, sender, ipfsCid, ts, decide (75 ≤ score), score⟩
      (.ok newId,
       { s with
         firCounter := newId,
         firs := fun i => if i = newId then some fir else s.firs i,
         victimFIRs := fun v =>
           if v = sender then s.victimFIRs v ++ [newId] else s.victimFIRs v })
  else (.error "AccessControl: account is missing role VICTIM_ROLE", s)

/-- `setVerification(_id, _verified)`: guarded by `onlyRole(GOV_ROLE)` and the
`onlyValidFIR` modifier (`require(firs[_id].exists)`); on success updates only
the record's `verified` flag. -/
def setVerification (s : RegState) (sender : String) (id : ℕ) (v : Bool) :
    Except String Unit × RegState :=
  if s.hasGovRole sender then
    match s.firs id with
    | none => (.error "FIR does not exist", s)
    | some f =>
      (.ok (),
       { s with firs := fun i => if i = id then some { f with verified := v } else s.firs i })
  else (.error "AccessControl: account is missing role GOV_ROLE", s)

end Registry

/-- A fully successful pipeline run with score 80 and the default threshold,
used to instantiate the orchestrator theorems. -/
def sampleEnvHappy : Server.SubmitEnv :=
  ⟨"0xabc", some ⟨"ocr text", 90, "ih"⟩, some ⟨"stt text", 85, "ah", .googleCloud⟩,
   some 80, some ⟨"cid123", "url1"⟩, some ⟨1, "tx1"⟩, true, 75⟩

/-- A run in which the IPFS upload (and hence everything after it) fails. -/
def sampleEnvPublishFail : Server.SubmitEnv :=
  ⟨"0xabc", some ⟨"ocr text", 90, "ih"⟩, some ⟨"stt text", 85, "ah", .googleCloud⟩,
   some 80, none, none, true, 75⟩

/-- A successful run whose transcription came from the STT fallback path. -/
def sampleEnvSttFallback : Server.SubmitEnv :=
  ⟨"0xabc", some ⟨"ocr text", 90, "ih"⟩, some (STTSvc.transcribeWithFallback "ah"),
   some 80, some ⟨"cid123", "url1"⟩, some ⟨1, "tx1"⟩, true, 75⟩

/-- An empty registry in which the sample sender holds both roles. -/
def sampleRegState : Registry.RegState :=
  ⟨0, fun _ => none, fun _ => [], fun _ => true, fun _ => true⟩

/-!
Helper lemmas about the Agreement Scorer's metrics.
-/

namespace ML

theorem interCard_eq (w1 w2 : List String) :
    interCard w1 w2 = (w1.toFinset ∩ w2.toFinset).card := by
  have hnd : (w1.dedup.filter (fun x => decide (x ∈ w2))).Nodup :=
    w1.nodup_dedup.filter _
  rw [interCard, ← List.toFinset_card_of_nodup hnd]
  congr 1
  ext x
  simp [List.mem_filter, List.mem_dedup]

theorem unionCard_eq (w1 w2 : List String) :
    unionCard w1 w2 = (w1.toFinset ∪ w2.toFinset).card := by
  rw [unionCard, ← List.card_toFinset, List.toFinset_append]

theorem lev_self (xs : List Char) : lev xs xs = 0 := by
  induction xs with
  | nil => simp [lev]
  | cons x xs ih => simp [lev, ih]

theorem lev_symm (xs ys : List Char) : lev xs ys = lev ys xs := by
  rcases xs with _ | ⟨x, xs⟩
  · rcases ys with _ | ⟨y, ys⟩ <;> simp [lev]
  · rcases ys with _ | ⟨y, ys⟩
    · simp [lev]
    · have h1 := lev_symm xs ys
      have h2 := lev_symm (x :: xs) ys
      have h3 := lev_symm xs (y :: ys)
      simp only [lev]
      rcases eq_or_ne x y with h | h
      · simp [h, h1]
      · simp [h, Ne.symm h, h1, h2, h3]
        omega
termination_by xs.length + ys.length
decreasing_by all_goals simp_arith

theorem vocab_perm (w1 w2 : List String) : (vocab w1 w2).Perm (vocab w2 w1) :=
  (List.perm_append_comm).dedup

theorem dotProd_symm (w1 w2 : List String) : dotProd w1 w2 = dotProd w2 w1 := by
  have hf : (fun w => w2.count w * w1.count w) = (fun w => w1.count w * w2.count w) :=
    funext fun w => Nat.mul_comm _ _
  rw [dotProd, dotProd, hf]
  exact ((vocab_perm w1 w2).map (fun w => w1.count w * w2.count w)).sum_eq

theorem sqNorm_symm (w1 w2 wl : List String) : sqNorm w1 w2 wl = sqNorm w2 w1 wl :=
  ((vocab_perm w1 w2).map (fun w => wl.count w * wl.count w)).sum_eq

theorem cosineSim_symm (w1 w2 : List String) : cosineSim w1 w2 = cosineSim w2 w1 := by
  rw [cosineSim, cosineSim, dotProd_symm, sqNorm_symm w1 w2 w1, sqNorm_symm w1 w2 w2]
  rcases em (Real.sqrt (sqNorm w2 w1 w1) = 0 ∨ Real.sqrt (sqNorm w2 w1 w2) = 0) with h | h
  · rw [if_pos (Or.symm h), if_pos h]
  · rw [if_neg (fun hc => h (Or.symm hc)), if_neg h, mul_comm]

theorem cosineSim_self (w : List String) (hw : w ≠ []) : cosineSim w w = 1 := by
  have hpos : 0 < sqNorm w w w := by
    rcases w with _ | ⟨a, t⟩
    · exact absurd rfl hw
    · have hmem : a ∈ vocab (a :: t) (a :: t) := by
        simp [vocab, List.mem_dedup]
      have hcount : 1 ≤ (a :: t).count a * (a :: t).count a := by
        have : 0 < (a :: t).count a := List.count_pos_iff.mpr (by simp)
        exact Nat.one_le_iff_ne_zero.mpr (by positivity)
      calc 0 < (a :: t).count a * (a :: t).count a := by omega
        _ ≤ sqNorm (a :: t) (a :: t) (a :: t) :=
          List.single_le_sum (by intro x _; positivity) _ (List.mem_map_of_mem _ hmem)
  have hs : (0:ℝ) < (sqNorm w w w : ℝ) := by exact_mod_cast hpos
  have hsqrt : Real.sqrt (sqNorm w w w) ≠ 0 := by
    positivity
  have hdot : dotProd w w = sqNorm w w w := rfl
  rw [cosineSim, if_neg (by push_neg; exact ⟨hsqrt, hsqrt⟩), hdot,
    Real.mul_self_sqrt (le_of_lt hs), div_self (ne_of_gt hs)]

theorem fallback_none_of_empty_union (a b : String)
    (h : unionCard (wordsOf a) (wordsOf b) = 0) :
    calculateSimilarityFallback a b = none := by
  simp only [calculateSimilarityFallback, if_pos h]

end ML

namespace Server

theorem no_auto_unverify (env : SubmitEnv) (id : ℕ) :
    Effect.callSetVerification id false ∉ (submitFIR env).1 := by
  rcases env with ⟨va, ocr, stt, ml, ipfs, cc, sv, th⟩
  rcases ocr with _ | o <;> rcases stt with _ | s <;> rcases ml with _ | m <;>
    rcases ipfs with _ | i <;> rcases cc with _ | c <;>
    simp [submitFIR]
  split <;> simp

end Server

namespace TextRules

theorem isWs_false_of_alnum (c : Char) (h : c.isAlphanum = true) : ML.isWs c = false := by
  simp only [ML.isWs, Bool.or_eq_false_iff, decide_eq_false_iff_not]
  refine ⟨⟨⟨⟨⟨?_, ?_⟩, ?_⟩, ?_⟩, ?_⟩, ?_⟩
  all_goals rintro rfl; exact absurd h (by decide)

theorem not_mem_of_alnum (c : Char) (h : c.isAlphanum = true) (P : List Char)
    (hP : ∀ p ∈ P, p.isAlphanum = false) : c ∉ P := by
  intro hc
  rw [hP c hc] at h
  exact Bool.noConfusion h

theorem dropWhile_eq_self_of_none (p : Char → Bool) (l : List Char)
    (h : ∀ c ∈ l, p c = false) : l.dropWhile p = l := by
  cases l with
  | nil => rfl
  | cons c cs => simp [List.dropWhile_cons, h c (List.mem_cons_self c cs)]

theorem trimWs_id (l : List Char) (h : ∀ c ∈ l, ML.isWs c = false) : ML.trimWs l = l := by
  rw [ML.trimWs, dropWhile_eq_self_of_none _ _ h,
    dropWhile_eq_self_of_none _ _ (fun c hc => h c (List.mem_reverse.mp hc)),
    List.reverse_reverse]

theorem collapseWsAux_id (l : List Char) (h : ∀ c ∈ l, ML.isWs c = false) :
    ML.collapseWsAux false l = l := by
  induction l with
  | nil => rfl
  | cons c cs ih =>
    rw [ML.collapseWsAux, if_neg (by simp [h c (List.mem_cons_self c cs)]),
      ih (fun x hx => h x (List.mem_cons_of_mem c hx))]

theorem collapseWs_id (l : List Char) (h : ∀ c ∈ l, ML.isWs c = false) :
    ML.collapseWs l = l := collapseWsAux_id l h

theorem collapseRunsAux_id (p : Char → Bool) (rep : Char) (l : List Char)
    (h : ∀ c ∈ l, p c = false) : collapseRunsAux p rep false l = l := by
  induction l with
  | nil => rfl
  | cons c cs ih =>
    rw [collapseRunsAux, if_neg (by simp [h c (List.mem_cons_self c cs)]),
      ih (fun x hx => h x (List.mem_cons_of_mem c hx))]

theorem rmWsBeforePunctAux_id (P : List Char) (l : List Char)
    (h1 : ∀ c ∈ l, ML.isWs c = false) (h2 : ∀ c ∈ l, c ∉ P) :
    rmWsBeforePunctAux P l = (l, false) := by
  induction l with
  | nil => rfl
  | cons c cs ih =>
    rw [rmWsBeforePunctAux,
      ih (fun x hx => h1 x (List.mem_cons_of_mem c hx))
         (fun x hx => h2 x (List.mem_cons_of_mem c hx))]
    simp [h1 c (List.mem_cons_self c cs), h2 c (List.mem_cons_self c cs)]

theorem spaceAfterPunctAux_id (P : List Char) (l : List Char)
    (h : ∀ c ∈ l, ML.isWs c = false) :
    ∀ a b, spaceAfterPunctAux P a b l = l := by
  induction l with
  | nil => intro a b; rfl
  | cons c cs ih =>
    intro a b
    rw [spaceAfterPunctAux, if_neg (by simp [h c (List.mem_cons_self c cs)]),
      ih (fun x hx => h x (List.mem_cons_of_mem c hx))]

theorem fixPunctLetterAux_id (l : List Char)
    (h1 : ∀ c ∈ l, ML.isWs c = false) (h2 : ∀ c ∈ l, c ∉ sentencePunct) :
    ∀ prev, fixPunctLetterAux prev (annotWsLowerAux l).1 = l := by
  induction l with
  | nil => intro prev; rfl
  | cons c cs ih =>
    intro prev
    rw [annotWsLowerAux]
    simp only
    rw [fixPunctLetterAux]
    rw [if_neg (by simp [h2 c (List.mem_cons_self c cs)]),
      if_neg (by simp [h1 c (List.mem_cons_self c cs)]),
      ih (fun x hx => h1 x (List.mem_cons_of_mem c hx))
         (fun x hx => h2 x (List.mem_cons_of_mem c hx))]

end TextRules

open ML

/-- C1: on the local-ensemble fallback path the returned score equals
`round(40·Jaccard + 40·cosine + 20·max(0, 100−editDistance)/100)` clamped to
`[0,100]`, where Jaccard and cosine are computed over the stop-word-filtered
token sets / term-frequency vectors of the cleaned texts and `editDistance` is
the Levenshtein distance between the two cleaned raw texts — provided the
union of the two filtered token sets is nonempty (the amendment forced by
`local_ensemble_score_nan_on_stopword_inputs`). -/
theorem local_ensemble_score_formula (a b : String)
    (h : unionCard (wordsOf (cleanText a)) (wordsOf (cleanText b)) ≠ 0) :
    calculateSimilarityLocal a b =
      some (min 100 (max 0 (round
        (40 * ((interCard (wordsOf (cleanText a)) (wordsOf (cleanText b)) : ℝ) /
               (unionCard (wordsOf (cleanText a)) (wordsOf (cleanText b)) : ℝ)) +
         40 * cosineSim (wordsOf (cleanText a)) (wordsOf (cleanText b)) +
         20 * (max 0 (100 - (lev (cleanText a).data (cleanText b).data : ℝ)) / 100))))) := by
  simp only [calculateSimilarityLocal, calculateSimilarityFallback, if_neg h]
  congr 4
  ring

/-- C1 witness: the formula theorem applied to the concrete pair
`("abc", "")`, whose token-set union is nonempty. -/
theorem local_ensemble_score_formula_witness :
    unionCard (wordsOf (cleanText "abc")) (wordsOf (cleanText "")) ≠ 0 ∧
    calculateSimilarityLocal "abc" "" =
      some (min 100 (max 0 (round
        (40 * ((interCard (wordsOf (cleanText "abc")) (wordsOf (cleanText "")) : ℝ) /
               (unionCard (wordsOf (cleanText "abc")) (wordsOf (cleanText "")) : ℝ)) +
         40 * cosineSim (wordsOf (cleanText "abc")) (wordsOf (cleanText "")) +
         20 * (max 0 (100 - (lev (cleanText "abc").data (cleanText "").data : ℝ)) / 100))))) :=
  ⟨by decide, local_ensemble_score_formula "abc" "" (by decide)⟩

/-- C1 counterexample: for the input pair `("", "")` (no token survives the
filters) the fallback does not return any integer score at all — the Jaccard
division is `0/0 = NaN` and the returned score is `NaN`, modelled `none` — so
the claim's universally quantified formula/clamping statement fails. -/
theorem local_ensemble_score_nan_on_stopword_inputs :
    calculateSimilarityLocal "" "" = none ∧
    ∀ n : ℤ, calculateSimilarityLocal "" "" ≠ some n := by
  have h : calculateSimilarityFallback (cleanText "") (cleanText "") = none :=
    fallback_none_of_empty_union _ _ (by decide)
  have h2 : calculateSimilarityLocal "" "" = none := h
  exact ⟨h2, fun n hn => by rw [h2] at hn; exact Option.noConfusion hn⟩

/-- C2: for every submission that completes the pipeline (success response)
with the default threshold 75, a `setVerification(id, true)` call is issued —
immediately after the `createFIR` call — if and only if the similarity score
is at least 75; and no run of the orchestrator ever issues
`setVerification(id, false)` automatically. -/
theorem auto_verify_iff_threshold (env : Server.SubmitEnv) (score : ℤ)
    (hthr : env.threshold = 75) (hsc : env.mlScore = some score)
    (hdone : (Server.submitFIR env).2 = true) :
    ((∃ id, Server.Effect.callSetVerification id true ∈ (Server.submitFIR env).1) ↔ 75 ≤ score)
    ∧ (75 ≤ score →
        ∃ cid id rest, (Server.submitFIR env).1 =
          Server.Effect.callCreateFIR cid score ::
            Server.Effect.callSetVerification id true :: rest)
    ∧ ∀ (env2 : Server.SubmitEnv) (id : ℕ),
        Server.Effect.callSetVerification id false ∉ (Server.submitFIR env2).1 := by
  refine ⟨?_, ?_, fun env2 id => Server.no_auto_unverify env2 id⟩ <;>
  · rcases env with ⟨va, ocr, stt, ml, ipfs, cc, sv, th⟩
    rcases ocr with _ | o <;> rcases stt with _ | s <;> rcases ml with _ | m <;>
      rcases ipfs with _ | i <;> rcases cc with _ | c <;>
      simp_all [Server.submitFIR] <;> split_ifs at * <;> simp_all

/-- C2 witness: the auto-verification theorem applied to a concrete fully
successful run with score 80 and threshold 75. -/
theorem auto_verify_iff_threshold_witness :
    sampleEnvHappy.threshold = 75 ∧ sampleEnvHappy.mlScore = some 80 ∧
    (Server.submitFIR sampleEnvHappy).2 = true ∧
    (((∃ id, Server.Effect.callSetVerification id true ∈
        (Server.submitFIR sampleEnvHappy).1) ↔ (75:ℤ) ≤ 80)
     ∧ ((75:ℤ) ≤ 80 →
        ∃ cid id rest, (Server.submitFIR sampleEnvHappy).1 =
          Server.Effect.callCreateFIR cid 80 ::
            Server.Effect.callSetVerification id true :: rest)
     ∧ ∀ (env2 : Server.SubmitEnv) (id : ℕ),
        Server.Effect.callSetVerification id false ∉ (Server.submitFIR env2).1) :=
  ⟨rfl, rfl, rfl, auto_verify_iff_threshold sampleEnvHappy 80 rfl rfl rfl⟩

/-- C3 (amended): for texts with completely disjoint filtered vocabularies
(and at least one surviving token in the first text) the Jaccard and cosine
components are 0 and the fallback score is exactly
`round(20·max(0, 100−editDistance)/100)` — an absolute, not length-normalized,
edit-distance bonus, which is `0` only once the edit distance reaches 98.
Disjointness and zero character overlap alone do not force a zero score (see
`disjoint_vocab_score_not_zero`). -/
theorem disjoint_vocab_score_formula (a b : String)
    (hdis : ∀ w ∈ wordsOf a, w ∉ wordsOf b)
    (hne : wordsOf a ≠ []) :
    calculateSimilarityFallback a b =
      some (round (max 0 (100 - (lev a.data b.data : ℝ)) / 100 * 20)) ∧
    (98 ≤ lev a.data b.data → calculateSimilarityFallback a b = some 0) := by
  have hinter : interCard (wordsOf a) (wordsOf b) = 0 := by
    rw [interCard_eq, Finset.card_eq_zero]
    ext w
    simp only [Finset.mem_inter, List.mem_toFinset, Finset.not_mem_empty, iff_false]
    rintro ⟨h1, h2⟩
    exact hdis w h1 h2
  have hdot : dotProd (wordsOf a) (wordsOf b) = 0 := by
    rw [dotProd]
    apply List.sum_eq_zero
    intro x hx
    rcases List.mem_map.mp hx with ⟨w, _, rfl⟩
    rcases em (w ∈ wordsOf a) with h1 | h1
    · rw [List.count_eq_zero.mpr (hdis w h1), Nat.mul_zero]
    · rw [List.count_eq_zero.mpr h1, Nat.zero_mul]
  have hcos : cosineSim (wordsOf a) (wordsOf b) = 0 := by
    rw [cosineSim, hdot]
    rcases em (Real.sqrt (sqNorm (wordsOf a) (wordsOf b) (wordsOf a)) = 0 ∨
        Real.sqrt (sqNorm (wordsOf a) (wordsOf b) (wordsOf b)) = 0) with h | h
    · rw [if_pos h]
    · rw [if_neg h]
      norm_num
  have hune : (wordsOf a).toFinset.Nonempty := by
    rcases List.exists_mem_of_ne_nil _ hne with ⟨w, hw⟩
    exact ⟨w, List.mem_toFinset.mpr hw⟩
  have hu : unionCard (wordsOf a) (wordsOf b) ≠ 0 := by
    rw [unionCard_eq]
    have hpos : 0 < ((wordsOf a).toFinset ∪ (wordsOf b).toFinset).card :=
      Finset.card_pos.mpr (hune.mono Finset.subset_union_left)
    omega
  set d : ℕ := lev a.data b.data with hd
  have hbound : (0:ℝ) ≤ max 0 (100 - (d : ℝ)) / 100 * 20 ∧
      max 0 (100 - (d : ℝ)) / 100 * 20 ≤ 20 := by
    constructor
    · positivity
    · have h1 : max 0 (100 - (d : ℝ)) ≤ 100 := by
        apply max_le <;> [norm_num; skip]
        have : (0:ℝ) ≤ (d:ℝ) := by positivity
        linarith
      linarith
  have hround0 : 0 ≤ round (max 0 (100 - (d : ℝ)) / 100 * 20) := by
    rw [round_eq]
    have := hbound.1
    have : (0:ℝ) ≤ max 0 (100 - (d : ℝ)) / 100 * 20 + 1/2 := by linarith
    exact Int.floor_nonneg.mpr this
  have hround100 : round (max 0 (100 - (d : ℝ)) / 100 * 20) ≤ 100 := by
    rw [round_eq]
    have := hbound.2
    have h2 : max 0 (100 - (d : ℝ)) / 100 * 20 + 1/2 ≤ (100:ℝ) := by linarith
    calc ⌊max 0 (100 - (d : ℝ)) / 100 * 20 + 1/2⌋ ≤ ⌊(100:ℝ)⌋ := Int.floor_le_floor h2
      _ = 100 := by norm_num
  have hmain : calculateSimilarityFallback a b =
      some (round (max 0 (100 - (d : ℝ)) / 100 * 20)) := by
    simp only [calculateSimilarityFallback, if_neg hu, hinter, hcos, ← hd]
    rw [Nat.cast_zero, zero_div]
    rw [show (0:ℝ) * 40 + 0 * 40 + max 0 (100 - (d : ℝ)) / 100 * 20
        = max 0 (100 - (d : ℝ)) / 100 * 20 by ring]
    congr 1
    omega
  refine ⟨hmain, fun hge => ?_⟩
  rw [hmain]
  congr 1
  have hmax : max 0 (100 - (d : ℝ)) ≤ 2 := by
    apply max_le
    · norm_num
    · have : (98:ℝ) ≤ (d:ℝ) := by exact_mod_cast hge
      linarith
  rw [round_eq]
  have hlow : (0:ℝ) ≤ max 0 (100 - (d : ℝ)) / 100 * 20 + 1/2 := by
    have := hbound.1
    linarith
  have hhigh : max 0 (100 - (d : ℝ)) / 100 * 20 + 1/2 < 1 := by
    have : max 0 (100 - (d : ℝ)) / 100 * 20 ≤ 2/100*20 := by linarith
    linarith
  have : ⌊max 0 (100 - (d : ℝ)) / 100 * 20 + 1/2⌋ = 0 := by
    apply Int.floor_eq_iff.mpr
    constructor <;> simp_all
  omega

/-- C3 witness: the amended disjoint-vocabulary theorem applied to the
concrete pair `("abcd", "wxyz")`. -/
theorem disjoint_vocab_score_formula_witness :
    (∀ w ∈ wordsOf "abcd", w ∉ wordsOf "wxyz") ∧ wordsOf "abcd" ≠ [] ∧
    (calculateSimilarityFallback "abcd" "wxyz" =
      some (round (max 0 (100 - (lev "abcd".data "wxyz".data : ℝ)) / 100 * 20)) ∧
     (98 ≤ lev "abcd".data "wxyz".data →
      calculateSimilarityFallback "abcd" "wxyz" = some 0)) :=
  ⟨by decide, by decide, disjoint_vocab_score_formula "abcd" "wxyz" (by decide) (by decide)⟩

/-- C3 counterexample: `"abc"` and `"xyz"` have completely disjoint
vocabularies and zero character overlap, yet the fallback scores 19, not 0:
the edit-distance component `20·max(0, 100−3)/100 = 19.4` of two short
unrelated texts is far from zero. -/
theorem disjoint_vocab_score_not_zero :
    (∀ w ∈ wordsOf "abc", w ∉ wordsOf "xyz") ∧
    (∀ c ∈ "abc".data, c ∉ "xyz".data) ∧
    calculateSimilarityFallback "abc" "xyz" = some 19 ∧ (19 : ℤ) ≠ 0 := by
  refine ⟨by decide, by decide, ?_, by decide⟩
  have hw1 : wordsOf "abc" = ["abc"] := by decide
  have hw2 : wordsOf "xyz" = ["xyz"] := by decide
  have hu : unionCard ["abc"] ["xyz"] = 2 := by decide
  have hi : interCard ["abc"] ["xyz"] = 0 := by decide
  have hlev : lev "abc".data "xyz".data = 3 := by simp [lev]
  have hcos : cosineSim ["abc"] ["xyz"] = 0 := by
    have h1 : sqNorm ["abc"] ["xyz"] ["abc"] = 1 := by decide
    have h2 : sqNorm ["abc"] ["xyz"] ["xyz"] = 1 := by decide
    have hd : dotProd ["abc"] ["xyz"] = 0 := by decide
    rw [cosineSim, h1, h2, hd]
    norm_num
  rw [calculateSimilarityFallback]
  simp only [hw1, hw2, hu, hi, hlev, hcos]
  norm_num [round_eq]

/-- C4 (amended): for every input text that keeps at least one token after
stop-word removal and the length->2 filter, running the fallback on two
identical copies scores exactly 100.  (For a text with no surviving token the
score is `NaN`, see `identical_stopword_text_score_nan`.) -/
theorem identical_text_scores_100 (t : String) (h : wordsOf t ≠ []) :
    calculateSimilarityFallback t t = some 100 := by
  have hne : (wordsOf t).toFinset.Nonempty := by
    rcases List.exists_mem_of_ne_nil _ h with ⟨a, ha⟩
    exact ⟨a, List.mem_toFinset.mpr ha⟩
  have hcard : 0 < (wordsOf t).toFinset.card := Finset.card_pos.mpr hne
  have hu : unionCard (wordsOf t) (wordsOf t) = (wordsOf t).toFinset.card := by
    rw [unionCard_eq, Finset.union_self]
  have hi : interCard (wordsOf t) (wordsOf t) = (wordsOf t).toFinset.card := by
    rw [interCard_eq, Finset.inter_self]
  have hc : cosineSim (wordsOf t) (wordsOf t) = 1 := cosineSim_self _ h
  have hl : lev t.data t.data = 0 := lev_self _
  simp only [calculateSimilarityFallback, hu, hi, hc, hl]
  rw [if_neg (by omega)]
  have hj : ((wordsOf t).toFinset.card : ℝ) / ((wordsOf t).toFinset.card : ℝ) = 1 := by
    apply div_self
    exact_mod_cast Nat.pos_iff_ne_zero.mp hcard
  rw [hj]
  norm_num [round_eq]

/-- C4 witness: the identical-text theorem applied to the concrete text
`"abc"`. -/
theorem identical_text_scores_100_witness :
    wordsOf "abc" ≠ [] ∧ calculateSimilarityFallback "abc" "abc" = some 100 :=
  ⟨by decide, identical_text_scores_100 "abc" (by decide)⟩

/-- C4 counterexample: on the text `"the"` (every token is filtered out) the
fallback applied to two identical copies returns `NaN` (modelled `none`), not
100, so the claim does not hold for every input text. -/
theorem identical_stopword_text_score_nan :
    calculateSimilarityFallback "the" "the" = none ∧
    calculateSimilarityFallback "the" "the" ≠ some 100 := by
  have h : calculateSimilarityFallback "the" "the" = none :=
    fallback_none_of_empty_union _ _ (by decide)
  exact ⟨h, fun hn => by rw [h] at hn; exact Option.noConfusion hn⟩

/-- C5: the local-ensemble fallback score is symmetric in its two input texts
(including the degenerate `NaN` case, which arises symmetrically). -/
theorem fallback_score_symm (a b : String) :
    calculateSimilarityFallback a b = calculateSimilarityFallback b a := by
  have hu : unionCard (wordsOf a) (wordsOf b) = unionCard (wordsOf b) (wordsOf a) := by
    rw [unionCard_eq, unionCard_eq, Finset.union_comm]
  have hi : interCard (wordsOf a) (wordsOf b) = interCard (wordsOf b) (wordsOf a) := by
    rw [interCard_eq, interCard_eq, Finset.inter_comm]
  have hc := cosineSim_symm (wordsOf a) (wordsOf b)
  have hl := lev_symm a.data b.data
  simp only [calculateSimilarityFallback, hu, hi, hc, hl]

/-- C6: if the IPFS upload fails, no ledger call of either kind is issued and
both temporary uploaded files are removed; and whenever the `createFIR` call
fails, no `setVerification` call follows. -/
theorem publish_failure_no_ledger_write (env : Server.SubmitEnv) :
    (env.ipfs = none →
      (∀ cid sc, Server.Effect.callCreateFIR cid sc ∉ (Server.submitFIR env).1)
      ∧ (∀ id b, Server.Effect.callSetVerification id b ∉ (Server.submitFIR env).1)
      ∧ Server.Effect.unlinkImage ∈ (Server.submitFIR env).1
      ∧ Server.Effect.unlinkAudio ∈ (Server.submitFIR env).1)
    ∧ (env.chainCreate = none →
      ∀ id b, Server.Effect.callSetVerification id b ∉ (Server.submitFIR env).1) := by
  rcases env with ⟨va, ocr, stt, ml, ipfs, cc, sv, th⟩
  rcases ocr with _ | o <;> rcases stt with _ | s <;> rcases ml with _ | m <;>
    rcases ipfs with _ | i <;> rcases cc with _ | c <;>
    simp_all [Server.submitFIR]

/-- C6 witness: the error-path theorem applied to a concrete run whose IPFS
upload (and ledger write) fails. -/
theorem publish_failure_no_ledger_write_witness :
    sampleEnvPublishFail.ipfs = none ∧ sampleEnvPublishFail.chainCreate = none ∧
    ((∀ cid sc, Server.Effect.callCreateFIR cid sc ∉
        (Server.submitFIR sampleEnvPublishFail).1)
     ∧ (∀ id b, Server.Effect.callSetVerification id b ∉
        (Server.submitFIR sampleEnvPublishFail).1)
     ∧ Server.Effect.unlinkImage ∈ (Server.submitFIR sampleEnvPublishFail).1
     ∧ Server.Effect.unlinkAudio ∈ (Server.submitFIR sampleEnvPublishFail).1) ∧
    (∀ id b, Server.Effect.callSetVerification id b ∉
        (Server.submitFIR sampleEnvPublishFail).1) :=
  ⟨rfl, rfl, (publish_failure_no_ledger_write sampleEnvPublishFail).1 rfl,
   (publish_failure_no_ledger_write sampleEnvPublishFail).2 rfl⟩

/-- C7: `createFIR` reverts (error result, state unchanged) when the content
identifier is empty or the score exceeds 100 (a `uint256` score is "outside
[0,100]" exactly when it exceeds 100), and `setVerification` reverts when the
target record id does not exist. -/
theorem registry_write_preconditions (s : Registry.RegState) (sender cid : String)
    (score ts : ℕ) :
    ((cid = "" ∨ 100 < score) →
      ∃ msg, Registry.createFIR s sender cid score ts = (Except.error msg, s))
    ∧ (∀ (id : ℕ) (v : Bool), s.firs id = none →
      ∃ msg, Registry.setVerification s sender id v = (Except.error msg, s)) := by
  constructor
  · intro h
    rw [Registry.createFIR]
    rcases em (s.hasVictimRole sender = true) with hr | hr
    · rw [if_pos hr]
      rcases h with h | h
      · subst h
        exact ⟨_, by rw [if_pos (show String.length "" = 0 from rfl)]⟩
      · rcases em (cid.length = 0) with hc | hc
        · exact ⟨_, by rw [if_pos hc]⟩
        · exact ⟨_, by rw [if_neg hc, if_pos h]⟩
    · rw [if_neg hr]
      exact ⟨_, rfl⟩
  · intro id v hnone
    rw [Registry.setVerification]
    rcases em (s.hasGovRole sender = true) with hr | hr
    · rw [if_pos hr, hnone]
      exact ⟨_, rfl⟩
    · rw [if_neg hr]
      exact ⟨_, rfl⟩

/-- C7 witness: the precondition theorem applied to a concrete empty registry,
an empty content identifier, and a nonexistent record id. -/
theorem registry_write_preconditions_witness :
    (("" : String) = "" ∨ 100 < 50) ∧ sampleRegState.firs 3 = none ∧
    (∃ msg, Registry.createFIR sampleRegState "victim1" "" 50 0 =
      (Except.error msg, sampleRegState)) ∧
    (∃ msg, Registry.setVerification sampleRegState "gov1" 3 true =
      (Except.error msg, sampleRegState)) :=
  ⟨Or.inl rfl, rfl,
   (registry_write_preconditions sampleRegState "victim1" "" 50 0).1 (Or.inl rfl),
   (registry_write_preconditions sampleRegState "gov1" "" 50 0).2 3 true rfl⟩

/-- C8: with no cloud client configured, `transcribeAudio` takes the fallback
path and returns a result tagged `provider = fallback` with confidence at most
50 (it is exactly 50), and a pipeline run fed that placeholder transcription
still completes end-to-end when the remaining stages succeed. -/
theorem stt_fallback_provider_confidence_pipeline (cloudOutcome : Option STTSvc.SttRes)
    (audioHash : String) (env : Server.SubmitEnv)
    (hstt : env.stt = some (STTSvc.transcribeWithFallback audioHash))
    (hocr : env.ocr.isSome = true) (hml : env.mlScore.isSome = true)
    (hipfs : env.ipfs.isSome = true) (hcc : env.chainCreate.isSome = true)
    (hsv : env.setVerificationOk = true) :
    STTSvc.transcribeAudio false cloudOutcome audioHash
      = some (STTSvc.transcribeWithFallback audioHash)
    ∧ (STTSvc.transcribeWithFallback audioHash).provider = STTSvc.SttProvider.fallback
    ∧ (STTSvc.transcribeWithFallback audioHash).confidence ≤ 50
    ∧ (Server.submitFIR env).2 = true := by
  refine ⟨rfl, rfl, le_refl _, ?_⟩
  rcases env with ⟨va, ocr, stt, ml, ipfs, cc, sv, th⟩
  rcases ocr with _ | o <;> rcases stt with _ | s <;> rcases ml with _ | m <;>
    rcases ipfs with _ | i <;> rcases cc with _ | c <;>
    simp_all [Server.submitFIR]
  split <;> simp_all

/-- C8 witness: the fallback-transcription theorem applied to a concrete run
whose transcription is the fallback placeholder and whose other stages
succeed. -/
theorem stt_fallback_provider_confidence_pipeline_witness :
    sampleEnvSttFallback.stt = some (STTSvc.transcribeWithFallback "ah") ∧
    sampleEnvSttFallback.ocr.isSome = true ∧
    sampleEnvSttFallback.mlScore.isSome = true ∧
    sampleEnvSttFallback.ipfs.isSome = true ∧
    sampleEnvSttFallback.chainCreate.isSome = true ∧
    sampleEnvSttFallback.setVerificationOk = true ∧
    (STTSvc.transcribeAudio false none "ah" = some (STTSvc.transcribeWithFallback "ah")
     ∧ (STTSvc.transcribeWithFallback "ah").provider = STTSvc.SttProvider.fallback
     ∧ (STTSvc.transcribeWithFallback "ah").confidence ≤ 50
     ∧ (Server.submitFIR sampleEnvSttFallback).2 = true) :=
  ⟨rfl, rfl, rfl, rfl, rfl, rfl,
   stt_fallback_provider_confidence_pipeline none "ah" sampleEnvSttFallback
     rfl rfl rfl rfl rfl rfl⟩

/-- C9 (amended): the Speech Transcriber's and the Text Extractor's
normalizers are distinct functions — the OCR cleaner deletes characters
outside its conservative whitelist while the STT cleaner never deletes
non-whitespace characters (see `cleaners_differ_at_special_char`) — but the
two agree on every string consisting solely of alphanumeric characters. -/
theorem cleaners_agree_on_alnum (s : String)
    (h : ∀ c ∈ s.data, c.isAlphanum = true) :
    STTSvc.cleanTranscription s = OCRSvc.cleanText s := by
  have hws : ∀ c ∈ s.data, ML.isWs c = false :=
    fun c hc => TextRules.isWs_false_of_alnum c (h c hc)
  have hnl : ∀ c ∈ s.data, (decide (c = '\n')) = false := by
    intro c hc
    have : c ≠ '\n' := fun e => absurd (h c hc) (by rw [e]; decide)
    simp [this]
  have hstt : ∀ c ∈ s.data, c ∉ STTSvc.sttPunct :=
    fun c hc => TextRules.not_mem_of_alnum c (h c hc) _ (by decide)
  have hocr : ∀ c ∈ s.data, c ∉ OCRSvc.ocrPunct :=
    fun c hc => TextRules.not_mem_of_alnum c (h c hc) _ (by decide)
  have hsp : ∀ c ∈ s.data, c ∉ TextRules.sentencePunct :=
    fun c hc => TextRules.not_mem_of_alnum c (h c hc) _ (by decide)
  have hkeep : ∀ c ∈ s.data,
      (ML.isWordChar c || ML.isWs c ||
        decide (c ∈ ['.', ',', '!', '?', ';', ':', '-', '(', ')'])) = true := by
    intro c hc
    simp [ML.isWordChar, h c hc]
  have hs : STTSvc.cleanTranscription s = String.mk s.data := by
    rw [STTSvc.cleanTranscription, TextRules.collapseWs_id _ hws,
      TextRules.collapseNlToSpace, TextRules.collapseRunsAux_id _ _ _ hnl,
      TextRules.fixPunctLetter, TextRules.fixPunctLetterAux_id _ hws hsp,
      TextRules.rmWsBeforePunct, TextRules.rmWsBeforePunctAux_id _ _ hws hstt,
      TextRules.spaceAfterPunct, TextRules.spaceAfterPunctAux_id _ _ hws,
      TextRules.trimWs_id _ hws]
  have ho : OCRSvc.cleanText s = String.mk s.data := by
    rw [OCRSvc.cleanText, TextRules.collapseWs_id _ hws,
      TextRules.collapseNl, TextRules.collapseRunsAux_id _ _ _ hnl,
      TextRules.trimWs_id _ hws,
      OCRSvc.stripSpecial, List.filter_eq_self.mpr hkeep,
      TextRules.rmWsBeforePunct, TextRules.rmWsBeforePunctAux_id _ _ hws hocr,
      TextRules.spaceAfterPunct, TextRules.spaceAfterPunctAux_id _ _ hws,
      TextRules.collapseWs_id _ hws, TextRules.trimWs_id _ hws]
  rw [hs, ho]

/-- C9 witness: the restricted agreement theorem applied to the concrete
alphanumeric string `"abc"`. -/
theorem cleaners_agree_on_alnum_witness :
    (∀ c ∈ "abc".data, c.isAlphanum = true) ∧
    STTSvc.cleanTranscription "abc" = OCRSvc.cleanText "abc" :=
  ⟨by decide, cleaners_agree_on_alnum "abc" (by decide)⟩

/-- C9 counterexample: the two cleaners are not equal as functions — on the
input `"@"` the OCR cleaner strips the character (it is outside the
conservative whitelist) while the STT cleaner keeps it. -/
theorem cleaners_differ_at_special_char :
    OCRSvc.cleanText "@" = "" ∧ STTSvc.cleanTranscription "@" = "@" ∧
    STTSvc.cleanTranscription "@" ≠ OCRSvc.cleanText "@" := by decide

/-- C10: when neither input keeps a token after stop-word removal and the
length->2 filter, the Jaccard computation divides the empty intersection by
the empty union (`0/0 = NaN` in JS, modelled `none`), so the fallback returns
no integer score in `[0,100]`; the cosine metric's zero-magnitude guard, by
contrast, yields 0 on the same inputs. -/
theorem jaccard_nan_when_no_tokens (a b : String)
    (ha : wordsOf a = []) (hb : wordsOf b = []) :
    calculateSimilarityFallback a b = none
    ∧ cosineSim (wordsOf a) (wordsOf b) = 0 := by
  have hu : unionCard (wordsOf a) (wordsOf b) = 0 := by
    rw [ha, hb]
    rfl
  refine ⟨fallback_none_of_empty_union a b hu, ?_⟩
  rw [ha, hb]
  simp [cosineSim, sqNorm, vocab, Real.sqrt_zero]

/-- C10 witness: the NaN theorem applied to the concrete pair
`("the", "a")`, both of which consist only of stop words / short tokens. -/
theorem jaccard_nan_when_no_tokens_witness :
    wordsOf "the" = [] ∧ wordsOf "a" = [] ∧
    (calculateSimilarityFallback "the" "a" = none
     ∧ cosineSim (wordsOf "the") (wordsOf "a") = 0) :=
  ⟨by decide, by decide, jaccard_nan_when_no_tokens "the" "a" (by decide) (by decide)⟩
